import Mathlib

/-!
Verification of the chunk transcription scheduler of the speech-to-text
repository.

The development shallowly embeds the three source files:

* `src/worker.js` — the module-level scheduler state (`isCurrentlyProcessing`,
  `lastProcessedChunkId`, `processingQueue`) and the `generate` function, as a
  small-step transition system over `WorkerState`.  The asynchronous body of
  `generate` is split at its await points: `generate` models the synchronous
  head of the function (dedup / queueing / start), `finishGenerate` models the
  terminal `postMessage` plus the `finally` block, and `workerTick` models a
  zero-delay `setTimeout` callback firing.
* `AudioFileComponent` (batch coordinator) — `processChunks`'s wave loop as a
  trace of progress/dispatch/barrier events, and the `complete`-message text
  accumulation in its `handleWorkerMessage`.
* `RealTimeAudioComponent` — the realtime transcript merge in its
  `handleWorkerMessage`.
* `App.jsx` — the `error` branch of `onMessageReceived`.

JS string primitives used by the components (`String.prototype.trim`,
`String.prototype.endsWith`) are modelled explicitly over `List Char` so that
they evaluate by `decide`.
-/

/-- Chunk identifiers as used in the repository: the batch coordinator submits
numeric ids `0..N-1`, the realtime component submits the string id
`"realtime"`.  JS compares these values with `<=` and `===`. -/
inductive ChunkId where
  | num (n : Int)
  | realtime
  deriving DecidableEq, Repr

/-- JS `chunkId <= lastProcessedChunkId` (worker.js line 57).  Between two
numbers it is numeric `≤`; `'realtime' <= 'realtime'` is a string comparison
and yields `true`; comparing the string `'realtime'` against a number coerces
the string to `NaN`, and every `NaN` comparison is `false`. -/
def jsLe : ChunkId → ChunkId → Bool
  | ChunkId.num a, ChunkId.num b => a ≤ b
  | ChunkId.realtime, ChunkId.realtime => true
  | _, _ => false

/-- Rendering of a chunk id into the message strings the worker interpolates
(worker.js line 124). -/
def chunkIdStr : ChunkId → String
  | ChunkId.num n => toString n
  | ChunkId.realtime => "realtime"

/-- A generate request as queued by the worker (worker.js line 63:
`{ audio, language, chunkId }`).  The audio buffer is kept as its sample
count; the scheduler never inspects the samples themselves. -/
structure Chunk where
  chunkId : ChunkId
  audioLen : Nat
  language : String
  deriving DecidableEq, Repr

/-- Messages the worker posts to the main thread from `generate`
(worker.js lines 73, 115-119, 121-126).  Intermediate token `update` messages
carry no scheduling information and are not modelled. -/
inductive OutEvent where
  | start (chunkId : ChunkId)
  | complete (chunkId : ChunkId) (output : String)
  | error (chunkId : ChunkId) (data : String)
  deriving DecidableEq, Repr

/-- The worker's module-level scheduler state (worker.js lines 45-47),
together with the chunk whose `generate` body is currently awaiting the model
(`inFlight`), the dequeued chunks whose `setTimeout(() => generate(nextItem), 0)`
callback has not fired yet (`pendingTick`, worker.js line 134), and the log of
posted messages (`events`). -/
structure WorkerState where
  isCurrentlyProcessing : Bool
  lastProcessedChunkId : ChunkId
  processingQueue : List Chunk
  inFlight : Option Chunk
  pendingTick : List Chunk
  events : List OutEvent
  deriving DecidableEq, Repr

/-- Initial worker state (worker.js lines 45-47: `false`, `-1`, `[]`). -/
def initialWorker : WorkerState :=
  { isCurrentlyProcessing := false
    lastProcessedChunkId := ChunkId.num (-1)
    processingQueue := []
    inFlight := none
    pendingTick := []
    events := [] }

/-- The synchronous head of `generate` (worker.js lines 49-73): while a chunk
is being processed, a request whose id is `<=` the last processed id or is
already queued is silently skipped (line 57), any other request is appended to
`processingQueue` (line 63); when idle, the flags are set (lines 68-69), a
`start` message is posted (line 73), and the chunk becomes the in-flight one
awaiting the model. -/
def generate (s : WorkerState) (c : Chunk) : WorkerState :=
  if s.isCurrentlyProcessing then
    if jsLe c.chunkId s.lastProcessedChunkId ||
        s.processingQueue.any (fun item => item.chunkId == c.chunkId) then
      s
    else
      { s with processingQueue := s.processingQueue ++ [c] }
  else
    { s with
      isCurrentlyProcessing := true
      lastProcessedChunkId := c.chunkId
      inFlight := some c
      events := s.events ++ [OutEvent.start c.chunkId] }

/-- The outcome with which the awaited model call resolves: the `try` body
reaches its `complete` post, or throws and the `catch` posts an `error`. -/
inductive Outcome where
  | complete (output : String)
  | error (reason : String)
  deriving DecidableEq, Repr

/-- The terminal message posted for the in-flight chunk (worker.js lines
115-119 on success, 121-126 on error, including the interpolated error
string of line 124). -/
def terminalEvent (id : ChunkId) : Outcome → OutEvent
  | Outcome.complete output => OutEvent.complete id output
  | Outcome.error reason =>
      OutEvent.error id
        ("Error processing audio segment " ++ chunkIdStr id ++ ": " ++ reason)

/-- Resumption of the in-flight `generate` call with outcome `o`: the terminal
message is posted (worker.js lines 112-126), then the `finally` block clears
`isCurrentlyProcessing` and, if the queue is non-empty, shifts its head and
schedules `generate(nextItem)` on a zero-delay timeout (lines 127-136).  The
dequeued chunk is not started here; it waits in `pendingTick` until its
timeout callback fires (`workerTick`). -/
def finishGenerate (s : WorkerState) (o : Outcome) : WorkerState :=
  match s.inFlight with
  | none => s
  | some c =>
    match s.processingQueue with
    | [] =>
      { s with
        events := s.events ++ [terminalEvent c.chunkId o]
        inFlight := none
        isCurrentlyProcessing := false }
    | next :: rest =>
      { s with
        events := s.events ++ [terminalEvent c.chunkId o]
        inFlight := none
        isCurrentlyProcessing := false
        processingQueue := rest
        pendingTick := s.pendingTick ++ [next] }

/-- A zero-delay timeout scheduled at worker.js line 134 fires:
`generate(nextItem)` runs against whatever the state is at that moment. -/
def workerTick (s : WorkerState) : WorkerState :=
  match s.pendingTick with
  | [] => s
  | c :: rest => generate { s with pendingTick := rest } c

/-- One externally observable scheduler action: a `generate` request arriving
from the main thread, the in-flight model call reaching its terminal event,
or a deferred `setTimeout` callback firing. -/
inductive Act where
  | submit (c : Chunk)
  | finish (o : Outcome)
  | tick
  deriving DecidableEq, Repr

/-- Single step of the worker transition system. -/
def workerStep (s : WorkerState) : Act → WorkerState
  | Act.submit c => generate s c
  | Act.finish o => finishGenerate s o
  | Act.tick => workerTick s

/-- Worker state reached from the initial state by a sequence of actions. -/
def runWorker (acts : List Act) : WorkerState :=
  acts.foldl workerStep initialWorker

/-- Recogniser for `start` messages. -/
def isStartEvent : OutEvent → Bool
  | OutEvent.start _ => true
  | _ => false

/-- Recogniser for terminal (`complete` or `error`) messages. -/
def isTerminalEvent : OutEvent → Bool
  | OutEvent.complete _ _ => true
  | OutEvent.error _ _ => true
  | _ => false

/-- Number of `start` messages in a log. -/
def numStarts (evs : List OutEvent) : Nat := evs.countP isStartEvent

/-- Number of terminal messages in a log. -/
def numTerminals (evs : List OutEvent) : Nat := evs.countP isTerminalEvent

/-- Single-flight invariant over worker states: the number of `start` messages
exceeds the number of terminal messages exactly by the processing flag, and
the flag coincides with the presence of an in-flight chunk. -/
def WorkerInv (s : WorkerState) : Prop :=
  numStarts s.events = numTerminals s.events + (if s.isCurrentlyProcessing then 1 else 0) ∧
  s.isCurrentlyProcessing = s.inFlight.isSome

/-- The chunk id carried by a worker message. -/
def eventChunkId : OutEvent → ChunkId
  | OutEvent.start id => id
  | OutEvent.complete id _ => id
  | OutEvent.error id _ => id

/-- A single space before each text in order: the shape in which
`appendChunkText` accumulates the non-empty trimmed chunk outputs. -/
def spaceJoined : List String → String
  | [] => ""
  | t :: ts => " " ++ t ++ spaceJoined ts

/-! ## Batch coordinator: `AudioFileComponent` -/

/-- Sampling constants (AudioFileComponent lines 3-5). -/
def WHISPER_SAMPLING_RATE : Nat := 16000

/-- Maximum chunk length in seconds (AudioFileComponent line 4). -/
def MAX_AUDIO_LENGTH : Nat := 30

/-- Window capacity in samples (AudioFileComponent line 5). -/
def MAX_SAMPLES : Nat := WHISPER_SAMPLING_RATE * MAX_AUDIO_LENGTH

/-- `Math.ceil(audio.length / MAX_SAMPLES)` (AudioFileComponent line 153). -/
def totalChunksOf (audioLen : Nat) : Nat :=
  (audioLen + MAX_SAMPLES - 1) / MAX_SAMPLES

/-- Sample range `[startSample, endSample)` of chunk `i`:
`startSample = chunkIndex * MAX_SAMPLES`,
`endSample = min(startSample + MAX_SAMPLES, audio.length)`
(AudioFileComponent lines 195-196). -/
def chunkBounds (audioLen chunkIndex : Nat) : Nat × Nat :=
  (chunkIndex * MAX_SAMPLES, min (chunkIndex * MAX_SAMPLES + MAX_SAMPLES) audioLen)

/-- Wave width (AudioFileComponent line 182). -/
def MAX_PARALLEL_CHUNKS : Nat := 3

/-- Chunk indices of each wave of `processChunks` (AudioFileComponent lines
185-197): the outer loop runs `i = 0, 3, 6, ...` while `i < totalChunks`, and
the wave at `i` holds the `batchSize = min(MAX_PARALLEL_CHUNKS, totalChunks - i)`
indices `i .. i + batchSize - 1`.  `wavesAux i r` is the loop from counter `i`
with `r = totalChunks - i` chunks remaining; the match on `r` against
`0`, `1`, `2` and `r + 3` realises `min 3 r`. -/
def wavesAux : Nat → Nat → List (List Nat)
  | _, 0 => []
  | i, 1 => [[i]]
  | i, 2 => [[i, i + 1]]
  | i, r + 3 => [i, i + 1, i + 2] :: wavesAux (i + 3) r

/-- The waves dispatched for a file of `totalChunks` chunks. -/
def waves (totalChunks : Nat) : List (List Nat) := wavesAux 0 totalChunks

/-- `Math.round((i + j) / totalChunks * 100)` (AudioFileComponent line 200),
with the floating-point division modelled as exact rational arithmetic:
for non-negative `x`, `Math.round(x) = ⌊x + 1/2⌋`, so the reported value is
`⌊(200 * chunkIndex + totalChunks) / (2 * totalChunks)⌋`. -/
def progressAt (chunkIndex totalChunks : Nat) : Nat :=
  (200 * chunkIndex + totalChunks) / (2 * totalChunks)

/-- Observable actions of `processChunks`, in program order. -/
inductive BatchEv where
  | setProgress (p : Nat)
  | dispatch (chunkIndex : Nat)
  | barrier (wave : List Nat)
  deriving DecidableEq, Repr

/-- Trace of one wave (AudioFileComponent lines 193-228): for each chunk of
the wave, `setProcessingProgress(progress)` (line 201) and then the `generate`
postMessage (line 212); after the inner loop, the `await Promise.all` barrier
for exactly that wave's chunks (line 228). -/
def waveTrace (totalChunks : Nat) (w : List Nat) : List BatchEv :=
  w.flatMap
      (fun c => [BatchEv.setProgress (progressAt c totalChunks), BatchEv.dispatch c]) ++
    [BatchEv.barrier w]

/-- Full trace of `processChunks` (AudioFileComponent lines 178-236): the wave
loop followed by the final `setProcessingProgress(100)` (line 235). -/
def batchTrace (totalChunks : Nat) : List BatchEv :=
  (waves totalChunks).flatMap (waveTrace totalChunks) ++ [BatchEv.setProgress 100]

/-! ## JS string primitives -/

/-- Whitespace as removed by JS `String.prototype.trim` (restricted to the
whitespace characters that can occur in this repository's strings). -/
def jsWhitespaceChar (ch : Char) : Bool :=
  ch == ' ' || ch == '\t' || ch == '\n' || ch == '\r'

/-- JS `s.trim()`: strip leading and trailing whitespace. -/
def jsTrim (s : String) : String :=
  String.mk (((s.data.dropWhile jsWhitespaceChar).reverse.dropWhile jsWhitespaceChar).reverse)

/-- JS `s.endsWith(t)`: `t` is a suffix of `s`. -/
def jsEndsWith (s t : String) : Bool :=
  t.data.isSuffixOf s.data

/-! ## Batch transcript assembly: `AudioFileComponent.handleWorkerMessage` -/

/-- The `complete` branch of AudioFileComponent's `handleWorkerMessage`
(lines 32-40): `newOutput = e.data.output[0].trim()`; if non-empty, the
transcript is updated with `` setText(p => `${p} ${newOutput}`) ``. -/
def appendChunkText (p rawOutput : String) : String :=
  let newOutput := jsTrim rawOutput
  if newOutput ≠ "" then p ++ " " ++ newOutput else p

/-- Transcript at the end of a batch session that received the given
`complete` outputs in arrival order; the transcript starts empty
(`setText('')`, AudioFileComponent line 137). -/
def batchTranscript (outputs : List String) : String :=
  outputs.foldl appendChunkText ""

/-! ## Realtime transcript merge: `RealTimeAudioComponent.handleWorkerMessage` -/

/-- The `complete`-for-`'realtime'` branch of RealTimeAudioComponent's
`handleWorkerMessage` (lines 412-428): `output = e.data.output[0].trim()`; if
`output` is empty or the literal `'[BLANK_AUDIO]'` the transcript is left
untouched; otherwise the previous transcript is trimmed and, unless it already
ends with `output`, `output` is appended after a single space (the inner
redundant `[BLANK_AUDIO]` test of line 423 is kept). -/
def realtimeMergeText (p rawOutput : String) : String :=
  let output := jsTrim rawOutput
  if output ≠ "" ∧ output ≠ "[BLANK_AUDIO]" then
    let trimmed := jsTrim p
    if trimmed = "" then output
    else if jsEndsWith trimmed output = false ∧ output ≠ "[BLANK_AUDIO]" then
      trimmed ++ " " ++ output
    else trimmed
  else p

/-- The realtime merge rule as the specification's words state it: a result
that trims to empty or to the blank marker leaves the transcript unchanged; a
result the transcript already ends with leaves it unchanged; otherwise the
result is appended after a single separating space, or becomes the transcript
when it was empty. -/
def realtimeMergeSpec (t r : String) : String :=
  if jsTrim r = "" ∨ jsTrim r = "[BLANK_AUDIO]" then t
  else if t = "" then r
  else if jsEndsWith t r then t
  else t ++ " " ++ r

/-! ## Main-thread error handling: `App.onMessageReceived` -/

/-- Main-thread state touched by the `error` branch of `onMessageReceived`
(App.jsx lines 79-92): session status, displayed text, the
`window.chunkResolvers` map (one pending resolver per dispatched chunk id),
and a log of resolver invocations. -/
structure AppState where
  status : String
  text : String
  resolvers : ChunkId → Bool
  resolvedLog : List ChunkId

/-- The `error` branch of `onMessageReceived` (App.jsx lines 79-92):
`setStatus('error')`, then `` setText(`Error: ${e.data.data}`) ``, then if a
resolver is registered under the message's chunk id it is deleted from the map
and invoked. -/
def onErrorMessage (s : AppState) (data : String) (chunkId : ChunkId) : AppState :=
  let s1 : AppState := { s with status := "error", text := "Error: " ++ data }
  if s1.resolvers chunkId then
    { s1 with
      resolvers := fun x => if x = chunkId then false else s1.resolvers x
      resolvedLog := s1.resolvedLog ++ [chunkId] }
  else s1

/-! ## Worker scheduler lemmas -/

theorem workerInv_initial : WorkerInv initialWorker := by
  constructor <;> rfl

/-- While processing, a request that fails the dedup test (worker.js line 57)
is a silent no-op. -/
theorem generate_processing_drop (s : WorkerState) (c : Chunk)
    (hp : s.isCurrentlyProcessing = true)
    (hd : (jsLe c.chunkId s.lastProcessedChunkId ||
      s.processingQueue.any (fun item => item.chunkId == c.chunkId)) = true) :
    generate s c = s := by
  unfold generate
  rw [hp, hd]
  simp

/-- While processing, a request that passes the dedup test is appended to the
queue and nothing else changes. -/
theorem generate_processing_queue (s : WorkerState) (c : Chunk)
    (hp : s.isCurrentlyProcessing = true)
    (hd : (jsLe c.chunkId s.lastProcessedChunkId ||
      s.processingQueue.any (fun item => item.chunkId == c.chunkId)) = false) :
    generate s c = { s with processingQueue := s.processingQueue ++ [c] } := by
  unfold generate
  rw [hp, hd]
  simp

/-- While idle, a request starts immediately: the processing flag is set, the
high-water mark is overwritten with the request's id, the chunk becomes
in-flight and a `start` message is posted (worker.js lines 68-73). -/
theorem generate_idle (s : WorkerState) (c : Chunk)
    (hp : s.isCurrentlyProcessing = false) :
    generate s c =
      { s with
        isCurrentlyProcessing := true
        lastProcessedChunkId := c.chunkId
        inFlight := some c
        events := s.events ++ [OutEvent.start c.chunkId] } := by
  unfold generate
  rw [hp]
  simp

/-- Spurious completion without an in-flight chunk changes nothing. -/
theorem finishGenerate_none (s : WorkerState) (o : Outcome)
    (hf : s.inFlight = none) : finishGenerate s o = s := by
  unfold finishGenerate
  rw [hf]

/-- Completion with an empty queue: post the terminal message, clear the
in-flight chunk and the processing flag. -/
theorem finishGenerate_some_nil (s : WorkerState) (o : Outcome) (c : Chunk)
    (hf : s.inFlight = some c) (hq : s.processingQueue = []) :
    finishGenerate s o =
      { s with
        events := s.events ++ [terminalEvent c.chunkId o]
        inFlight := none
        isCurrentlyProcessing := false } := by
  unfold finishGenerate
  rw [hf, hq]

/-- Completion with a non-empty queue: additionally the head of the queue is
shifted off and handed to a zero-delay timeout (worker.js lines 131-135). -/
theorem finishGenerate_some_cons (s : WorkerState) (o : Outcome) (c next : Chunk)
    (rest : List Chunk)
    (hf : s.inFlight = some c) (hq : s.processingQueue = next :: rest) :
    finishGenerate s o =
      { s with
        events := s.events ++ [terminalEvent c.chunkId o]
        inFlight := none
        isCurrentlyProcessing := false
        processingQueue := rest
        pendingTick := s.pendingTick ++ [next] } := by
  unfold finishGenerate
  rw [hf, hq]

theorem isTerminalEvent_terminalEvent (id : ChunkId) (o : Outcome) :
    isTerminalEvent (terminalEvent id o) = true := by
  cases o <;> rfl

theorem isStartEvent_terminalEvent (id : ChunkId) (o : Outcome) :
    isStartEvent (terminalEvent id o) = false := by
  cases o <;> rfl

theorem workerInv_generate (s : WorkerState) (c : Chunk) (h : WorkerInv s) :
    WorkerInv (generate s c) := by
  obtain ⟨h1, h2⟩ := h
  cases hp : s.isCurrentlyProcessing with
  | true =>
    cases hd : (jsLe c.chunkId s.lastProcessedChunkId ||
        s.processingQueue.any (fun item => item.chunkId == c.chunkId)) with
    | true => rw [generate_processing_drop s c hp hd]; exact ⟨h1, h2⟩
    | false =>
      rw [generate_processing_queue s c hp hd]
      exact ⟨h1, h2⟩
  | false =>
    rw [generate_idle s c hp]
    rw [hp, if_neg (by decide : ¬(false = true))] at h1
    refine ⟨?_, rfl⟩
    simp only [numStarts, numTerminals] at h1 ⊢
    simp [List.countP_append, List.countP_cons, isStartEvent, isTerminalEvent] at h1 ⊢
    omega

theorem workerInv_finishGenerate (s : WorkerState) (o : Outcome) (h : WorkerInv s) :
    WorkerInv (finishGenerate s o) := by
  obtain ⟨h1, h2⟩ := h
  cases hf : s.inFlight with
  | none => rw [finishGenerate_none s o hf]; exact ⟨h1, h2⟩
  | some c =>
    rw [hf] at h2
    simp only [Option.isSome_some] at h2
    have hcount : numStarts (s.events ++ [terminalEvent c.chunkId o]) =
        numTerminals (s.events ++ [terminalEvent c.chunkId o]) := by
      simp only [numStarts, numTerminals, List.countP_append, List.countP_cons,
        List.countP_nil, isTerminalEvent_terminalEvent, isStartEvent_terminalEvent,
        h2, eq_self_iff_true, if_true, Bool.false_eq_true, if_false] at h1 ⊢
      omega
    cases hq : s.processingQueue with
    | nil =>
      rw [finishGenerate_some_nil s o c hf hq]
      exact ⟨by simpa using hcount, rfl⟩
    | cons next rest =>
      rw [finishGenerate_some_cons s o c next rest hf hq]
      exact ⟨by simpa using hcount, rfl⟩

theorem workerInv_tick (s : WorkerState) (h : WorkerInv s) :
    WorkerInv (workerTick s) := by
  unfold workerTick
  obtain ⟨h1, h2⟩ := h
  match hp : s.pendingTick with
  | [] => exact ⟨h1, h2⟩
  | c :: rest => exact workerInv_generate _ c ⟨h1, h2⟩

theorem workerInv_step (s : WorkerState) (a : Act) (h : WorkerInv s) :
    WorkerInv (workerStep s a) := by
  cases a with
  | submit c => exact workerInv_generate s c h
  | finish o => exact workerInv_finishGenerate s o h
  | tick => exact workerInv_tick s h

theorem workerInv_run (acts : List Act) : WorkerInv (runWorker acts) := by
  have general : ∀ (l : List Act) (s : WorkerState), WorkerInv s →
      WorkerInv (l.foldl workerStep s) := by
    intro l
    induction l with
    | nil => intro s h; exact h
    | cons a l ih => intro s h; exact ih _ (workerInv_step s a h)
  exact general acts initialWorker workerInv_initial
/-! ## Wave structure lemmas -/

theorem wavesAux_flatten : ∀ (r i : Nat), (wavesAux i r).flatten = List.range' i r := by
  intro r
  induction r using Nat.strong_induction_on with
  | _ r ih =>
    intro i
    match r with
    | 0 => simp [wavesAux]
    | 1 => simp [wavesAux, List.range'_succ]
    | 2 => simp [wavesAux, List.range'_succ]
    | r + 3 =>
      rw [wavesAux, List.flatten_cons, ih r (by omega) (i + 3)]
      rw [List.range'_succ, List.range'_succ, List.range'_succ]
      norm_num

theorem waves_flatten (n : Nat) : (waves n).flatten = List.range n := by
  rw [waves, wavesAux_flatten]
  exact (List.range_eq_range' n).symm

theorem wavesAux_length_le : ∀ (r i : Nat), ∀ w ∈ wavesAux i r, w.length ≤ 3 := by
  intro r
  induction r using Nat.strong_induction_on with
  | _ r ih =>
    intro i w hw
    match r with
    | 0 => simp [wavesAux] at hw
    | 1 =>
      simp only [wavesAux, List.mem_singleton] at hw
      subst hw; simp
    | 2 =>
      simp only [wavesAux, List.mem_singleton] at hw
      subst hw; simp
    | r + 3 =>
      rw [wavesAux] at hw
      rcases List.mem_cons.mp hw with h | h
      · subst h; simp
      · exact ih r (by omega) (i + 3) w h

theorem waves_length_le (n : Nat) : ∀ w ∈ waves n, w.length ≤ MAX_PARALLEL_CHUNKS :=
  wavesAux_length_le n 0

theorem waves_ne_nil (n : Nat) (h : 0 < n) : waves n ≠ [] := by
  rw [waves]
  match n, h with
  | 1, _ => simp [wavesAux]
  | 2, _ => simp [wavesAux]
  | r + 3, _ => simp [wavesAux]

theorem count_dispatch_pairs (n : Nat) (w : List Nat) (c : Nat) :
    (w.flatMap
        (fun a => [BatchEv.setProgress (progressAt a n), BatchEv.dispatch a])).count
      (BatchEv.dispatch c) = w.count c := by
  induction w with
  | nil => rfl
  | cons a w ih =>
    simp only [List.flatMap_cons, List.count_append, ih, List.count_cons]
    by_cases hac : a = c
    · subst hac
      simp [List.count_cons, List.count_nil]
      omega
    · simp [List.count_cons, List.count_nil, hac]

theorem waveTrace_count_dispatch (n : Nat) (w : List Nat) (c : Nat) :
    (waveTrace n w).count (BatchEv.dispatch c) = w.count c := by
  rw [waveTrace, List.count_append, count_dispatch_pairs]
  simp [List.count_cons]

theorem batchTrace_count_dispatch (n c : Nat) :
    (batchTrace n).count (BatchEv.dispatch c) = if c < n then 1 else 0 := by
  rw [batchTrace, List.count_append, List.count_flatMap]
  have h1 : List.map (List.count (BatchEv.dispatch c) ∘ waveTrace n) (waves n)
      = List.map (List.count c) (waves n) := by
    apply List.map_congr_left
    intro w _
    exact waveTrace_count_dispatch n w c
  rw [h1, ← List.count_flatten, waves_flatten]
  have h2 : (List.range n).count c = if c < n then 1 else 0 := by
    rw [List.count_eq_of_nodup (List.nodup_range n)]
    simp [List.mem_range]
  rw [h2]
  simp [List.count_cons]

theorem batchTrace_consecutive_waves (n : Nat) (pre post : List (List Nat))
    (w1 w2 : List Nat) (h : waves n = pre ++ w1 :: w2 :: post) :
    ∃ t1 t2, batchTrace n = t1 ++ BatchEv.barrier w1 :: (waveTrace n w2 ++ t2) := by
  refine ⟨pre.flatMap (waveTrace n) ++
      w1.flatMap (fun c => [BatchEv.setProgress (progressAt c n), BatchEv.dispatch c]),
    post.flatMap (waveTrace n) ++ [BatchEv.setProgress 100], ?_⟩
  rw [batchTrace, h]
  simp only [List.flatMap_append, List.flatMap_cons]
  rw [waveTrace]
  simp [List.append_assoc]

theorem pairs_decomp (n : Nat) (w : List Nat) (c : Nat) (hc : c ∈ w) :
    ∃ u v, w.flatMap (fun a => [BatchEv.setProgress (progressAt a n), BatchEv.dispatch a])
      = u ++ BatchEv.setProgress (progressAt c n) :: BatchEv.dispatch c :: v := by
  obtain ⟨l1, l2, rfl⟩ := List.append_of_mem hc
  refine ⟨l1.flatMap (fun a => [BatchEv.setProgress (progressAt a n), BatchEv.dispatch a]),
    l2.flatMap (fun a => [BatchEv.setProgress (progressAt a n), BatchEv.dispatch a]), ?_⟩
  simp [List.flatMap_append, List.flatMap_cons]

theorem batchTrace_progress_dispatch (n c : Nat) (h : c < n) :
    ∃ t1 t2, batchTrace n =
      t1 ++ BatchEv.setProgress (progressAt c n) :: BatchEv.dispatch c :: t2 := by
  have hc : c ∈ (waves n).flatten := by
    rw [waves_flatten]; exact List.mem_range.mpr h
  obtain ⟨w, hw, hcw⟩ := List.mem_flatten.mp hc
  obtain ⟨p, q, hpq⟩ := List.append_of_mem hw
  obtain ⟨u, v, huv⟩ := pairs_decomp n w c hcw
  refine ⟨p.flatMap (waveTrace n) ++ u,
    v ++ BatchEv.barrier w :: (q.flatMap (waveTrace n) ++ [BatchEv.setProgress 100]), ?_⟩
  rw [batchTrace, hpq]
  simp only [List.flatMap_append, List.flatMap_cons]
  rw [waveTrace, huv]
  simp [List.append_assoc]

theorem flatMap_waveTrace_ends_barrier (n : Nat) :
    ∀ ws : List (List Nat), ws ≠ [] →
      ∃ t w, ws.flatMap (waveTrace n) = t ++ [BatchEv.barrier w] := by
  intro ws
  induction ws with
  | nil => intro hne; exact absurd rfl hne
  | cons w ws ih =>
    intro _
    cases ws with
    | nil =>
      refine ⟨w.flatMap (fun c => [BatchEv.setProgress (progressAt c n), BatchEv.dispatch c]),
        w, ?_⟩
      simp [waveTrace]
    | cons w2 ws2 =>
      obtain ⟨t, wlast, ht⟩ := ih (by simp)
      exact ⟨waveTrace n w ++ t, wlast, by
        simp only [List.flatMap_cons] at ht ⊢
        rw [ht, List.append_assoc]⟩

theorem batchTrace_ends (n : Nat) (h : 0 < n) :
    ∃ t w, batchTrace n = t ++ [BatchEv.barrier w, BatchEv.setProgress 100] := by
  obtain ⟨t, w, ht⟩ := flatMap_waveTrace_ends_barrier n (waves n) (waves_ne_nil n h)
  refine ⟨t, w, ?_⟩
  rw [batchTrace, ht]
  simp

/-! ## Batch transcript and merge lemmas -/

theorem totalChunksOf_ceil (len : Nat) (h : 0 < len) :
    (totalChunksOf len - 1) * MAX_SAMPLES < len ∧ len ≤ totalChunksOf len * MAX_SAMPLES := by
  unfold totalChunksOf MAX_SAMPLES WHISPER_SAMPLING_RATE MAX_AUDIO_LENGTH
  omega

theorem foldl_appendChunkText (outputs : List String) (p : String) :
    outputs.foldl appendChunkText p =
      p ++ spaceJoined ((outputs.map jsTrim).filter (fun t => t != "")) := by
  induction outputs generalizing p with
  | nil => simp [spaceJoined]
  | cons x xs ih =>
    by_cases hx : jsTrim x = ""
    · simp [appendChunkText, hx, ih, spaceJoined]
    · simp [appendChunkText, hx, ih, spaceJoined, String.append_assoc]

theorem batchTranscript_eq (outputs : List String) :
    batchTranscript outputs =
      spaceJoined ((outputs.map jsTrim).filter (fun t => t != "")) := by
  rw [batchTranscript, foldl_appendChunkText]
  simp

theorem intercalate_go_space (as : List String) : ∀ acc : String,
    String.intercalate.go acc " " as = acc ++ spaceJoined as := by
  induction as with
  | nil => intro acc; simp [String.intercalate.go, spaceJoined]
  | cons a as ih =>
    intro acc
    rw [String.intercalate.go, ih]
    simp [spaceJoined, String.append_assoc]

theorem spaceJoined_intercalate (x : String) (xs : List String) :
    spaceJoined (x :: xs) = " " ++ String.intercalate " " (x :: xs) := by
  rw [String.intercalate, intercalate_go_space]
  simp [spaceJoined, String.append_assoc]

theorem realtimeMergeText_eq_spec (t r : String)
    (ht : jsTrim t = t) (hr : jsTrim r = r) :
    realtimeMergeText t r = realtimeMergeSpec t r := by
  rw [realtimeMergeText, realtimeMergeSpec]
  simp only [ht, hr]
  by_cases hb : r = "" ∨ r = "[BLANK_AUDIO]"
  · rw [if_neg (by tauto), if_pos hb]
  · have hnb : r ≠ "" ∧ r ≠ "[BLANK_AUDIO]" := by tauto
    rw [if_pos hnb, if_neg hb]
    by_cases htt : t = ""
    · rw [if_pos htt, if_pos htt]
    · rw [if_neg htt, if_neg htt]
      cases hew : jsEndsWith t r with
      | true =>
        rw [if_neg (by simp [hew]), if_pos (by simp [hew])]
      | false =>
        rw [if_pos ⟨rfl, hnb.2⟩, if_neg (by simp [hew])]

theorem generate_processing_effects (s : WorkerState) (c : Chunk)
    (hp : s.isCurrentlyProcessing = true) :
    (generate s c).events = s.events ∧
    (generate s c).inFlight = s.inFlight ∧
    (generate s c).isCurrentlyProcessing = true ∧
    (generate s c = s ∨ (generate s c).processingQueue = s.processingQueue ++ [c]) := by
  cases hd : (jsLe c.chunkId s.lastProcessedChunkId ||
      s.processingQueue.any (fun item => item.chunkId == c.chunkId)) with
  | true =>
    rw [generate_processing_drop s c hp hd]
    exact ⟨rfl, rfl, hp, Or.inl rfl⟩
  | false =>
    rw [generate_processing_queue s c hp hd]
    exact ⟨rfl, rfl, hp, Or.inr rfl⟩

/-! ## High-water-mark and tick lemmas -/

theorem lastProcessedChunkId_generate (s : WorkerState) (c : Chunk) :
    (generate s c).lastProcessedChunkId =
      if s.isCurrentlyProcessing then s.lastProcessedChunkId else c.chunkId := by
  cases hp : s.isCurrentlyProcessing with
  | true =>
    rw [if_pos rfl]
    cases hd : (jsLe c.chunkId s.lastProcessedChunkId ||
        s.processingQueue.any (fun item => item.chunkId == c.chunkId)) with
    | true => rw [generate_processing_drop s c hp hd]
    | false => rw [generate_processing_queue s c hp hd]
  | false =>
    rw [if_neg (by decide : ¬(false = true)), generate_idle s c hp]

theorem lastProcessedChunkId_finishGenerate (s : WorkerState) (o : Outcome) :
    (finishGenerate s o).lastProcessedChunkId = s.lastProcessedChunkId := by
  cases hf : s.inFlight with
  | none => rw [finishGenerate_none s o hf]
  | some c =>
    cases hq : s.processingQueue with
    | nil => rw [finishGenerate_some_nil s o c hf hq]
    | cons next rest => rw [finishGenerate_some_cons s o c next rest hf hq]

theorem workerTick_nil (s : WorkerState) (hp : s.pendingTick = []) :
    workerTick s = s := by
  unfold workerTick
  rw [hp]

theorem workerTick_cons (s : WorkerState) (c : Chunk) (rest : List Chunk)
    (hp : s.pendingTick = c :: rest) :
    workerTick s = generate { s with pendingTick := rest } c := by
  unfold workerTick
  rw [hp]

theorem lastProcessedChunkId_workerTick (s : WorkerState) :
    (workerTick s).lastProcessedChunkId =
      match s.pendingTick with
      | [] => s.lastProcessedChunkId
      | c :: _ =>
        if s.isCurrentlyProcessing then s.lastProcessedChunkId else c.chunkId := by
  cases hp : s.pendingTick with
  | nil => rw [workerTick_nil s hp]
  | cons c rest =>
    rw [workerTick_cons s c rest hp, lastProcessedChunkId_generate]

/-! ## Claims -/

/-- C1: for every sequence of submit (`generate`) requests, at most one chunk
is being processed at any instant.  A request arriving while
`isCurrentlyProcessing` is true is either dropped (state unchanged) or
appended to the queue — never started: it posts no message and leaves the
in-flight chunk untouched.  And in every reachable state the number of
`start` messages exceeds the number of terminal messages by exactly the
processing flag (0 or 1), so a second chunk can only start after the in-flight
chunk's terminal event. -/
theorem claim_C1_single_flight :
    (∀ (acts : List Act) (c : Chunk),
      (runWorker acts).isCurrentlyProcessing = true →
        (generate (runWorker acts) c).events = (runWorker acts).events ∧
        (generate (runWorker acts) c).inFlight = (runWorker acts).inFlight ∧
        (generate (runWorker acts) c = runWorker acts ∨
          (generate (runWorker acts) c).processingQueue =
            (runWorker acts).processingQueue ++ [c])) ∧
    (∀ acts : List Act,
      numStarts (runWorker acts).events =
        numTerminals (runWorker acts).events +
          (if (runWorker acts).isCurrentlyProcessing then 1 else 0)) := by
  constructor
  · intro acts c hp
    obtain ⟨h1, h2, _, h4⟩ := generate_processing_effects (runWorker acts) c hp
    exact ⟨h1, h2, h4⟩
  · intro acts
    exact (workerInv_run acts).1

/-- Witness for C1: after submitting chunk 0 the scheduler is processing, and
a second arriving request posts no message. -/
theorem claim_C1_single_flight_witness :
    (runWorker [Act.submit ⟨ChunkId.num 0, 4, "en"⟩]).isCurrentlyProcessing = true ∧
    (generate (runWorker [Act.submit ⟨ChunkId.num 0, 4, "en"⟩])
        ⟨ChunkId.num 1, 4, "en"⟩).events =
      (runWorker [Act.submit ⟨ChunkId.num 0, 4, "en"⟩]).events :=
  ⟨by decide,
    (claim_C1_single_flight.1 [Act.submit ⟨ChunkId.num 0, 4, "en"⟩]
      ⟨ChunkId.num 1, 4, "en"⟩ (by decide)).1⟩

/-- C2 counterexample: the claim quantifies over every scheduler state, but
the dedup test only runs while `isCurrentlyProcessing` is true.  In the
reachable state after chunk 5 completed, the scheduler is idle with
`lastProcessedChunkId = 5`; submitting the stale id 3 (`3 <= 5`) is not a
no-op — it changes the state and starts processing chunk 3 immediately. -/
theorem claim_C2_counterexample :
    (runWorker [Act.submit ⟨ChunkId.num 5, 10, "en"⟩,
        Act.finish (Outcome.complete "a")]).isCurrentlyProcessing = false ∧
    (runWorker [Act.submit ⟨ChunkId.num 5, 10, "en"⟩,
        Act.finish (Outcome.complete "a")]).lastProcessedChunkId = ChunkId.num 5 ∧
    jsLe (ChunkId.num 3) (ChunkId.num 5) = true ∧
    generate (runWorker [Act.submit ⟨ChunkId.num 5, 10, "en"⟩,
        Act.finish (Outcome.complete "a")]) ⟨ChunkId.num 3, 10, "en"⟩ ≠
      runWorker [Act.submit ⟨ChunkId.num 5, 10, "en"⟩, Act.finish (Outcome.complete "a")] ∧
    (generate (runWorker [Act.submit ⟨ChunkId.num 5, 10, "en"⟩,
        Act.finish (Outcome.complete "a")]) ⟨ChunkId.num 3, 10, "en"⟩).inFlight =
      some ⟨ChunkId.num 3, 10, "en"⟩ := by
  decide

/-- C2 amended: while a chunk is currently processing, a submission whose id
is `<=` the high-water mark or is already present in the queue is a silent
no-op — the scheduler state is unchanged, so nothing is enqueued or processed.
(When the scheduler is idle the dedup test is skipped and any submission
starts immediately.) -/
theorem claim_C2_dedup_noop (s : WorkerState) (c : Chunk)
    (hp : s.isCurrentlyProcessing = true)
    (hd : jsLe c.chunkId s.lastProcessedChunkId = true ∨
      s.processingQueue.any (fun item => item.chunkId == c.chunkId) = true) :
    generate s c = s := by
  apply generate_processing_drop s c hp
  rcases hd with h | h
  · rw [h]
    rfl
  · rw [h]
    simp

/-- Witness for C2 amended: re-submitting the id of the chunk currently being
processed is dropped. -/
theorem claim_C2_dedup_noop_witness :
    (runWorker [Act.submit ⟨ChunkId.num 0, 4, "en"⟩]).isCurrentlyProcessing = true ∧
    generate (runWorker [Act.submit ⟨ChunkId.num 0, 4, "en"⟩]) ⟨ChunkId.num 0, 4, "en"⟩ =
      runWorker [Act.submit ⟨ChunkId.num 0, 4, "en"⟩] :=
  ⟨by decide, claim_C2_dedup_noop _ _ (by decide) (Or.inl (by decide))⟩

/-- C3 counterexample: the high-water mark is not monotone.  After chunk 5
completes, the scheduler is idle with mark 5; submitting chunk 3 while idle
overwrites the mark down to 3 (`¬(5 <= 3)`), because an idle-state `generate`
sets `lastProcessedChunkId = chunkId` unconditionally (worker.js line 69). -/
theorem claim_C3_counterexample :
    (runWorker [Act.submit ⟨ChunkId.num 5, 10, "en"⟩,
        Act.finish (Outcome.complete "a")]).lastProcessedChunkId = ChunkId.num 5 ∧
    (runWorker [Act.submit ⟨ChunkId.num 5, 10, "en"⟩, Act.finish (Outcome.complete "a"),
        Act.submit ⟨ChunkId.num 3, 10, "en"⟩]).lastProcessedChunkId = ChunkId.num 3 ∧
    jsLe (ChunkId.num 5) (ChunkId.num 3) = false := by
  decide

/-- C3 amended: `lastProcessedChunkId` changes exactly when a chunk begins
processing, at which moment it is overwritten with that chunk's id (numeric or
the sentinel) — submissions that are queued or dropped leave it unchanged, as
do terminal events.  It is therefore not monotonically non-decreasing: an
idle-state submission (or a deferred tick starting a dequeued chunk) with a
smaller id lowers it. -/
theorem claim_C3_mark_overwritten_at_start :
    (∀ (s : WorkerState) (c : Chunk),
      (generate s c).lastProcessedChunkId =
        if s.isCurrentlyProcessing then s.lastProcessedChunkId else c.chunkId) ∧
    (∀ (s : WorkerState) (o : Outcome),
      (finishGenerate s o).lastProcessedChunkId = s.lastProcessedChunkId) ∧
    (∀ s : WorkerState,
      (workerTick s).lastProcessedChunkId =
        match s.pendingTick with
        | [] => s.lastProcessedChunkId
        | c :: _ =>
          if s.isCurrentlyProcessing then s.lastProcessedChunkId else c.chunkId) :=
  ⟨lastProcessedChunkId_generate, lastProcessedChunkId_finishGenerate,
    lastProcessedChunkId_workerTick⟩

/-- C4: the batch coordinator computes `N = ceil(T / MAX_SAMPLES)` chunks with
ids `0..N-1` and dispatches them in waves of at most `MAX_PARALLEL_CHUNKS = 3`
in id order; between two consecutive waves the trace contains the barrier
awaiting exactly the earlier wave, and each chunk is dispatched exactly once,
so no chunk of a later wave is dispatched before the earlier wave's waiters
resolve; for `N = 7` the wave sizes are `[3, 3, 1]`. -/
theorem claim_C4_wave_dispatch :
    (∀ len : Nat, 0 < len →
      (totalChunksOf len - 1) * MAX_SAMPLES < len ∧
        len ≤ totalChunksOf len * MAX_SAMPLES) ∧
    (∀ n : Nat, ∀ w ∈ waves n, w.length ≤ MAX_PARALLEL_CHUNKS) ∧
    (∀ n : Nat, (waves n).flatten = List.range n) ∧
    ((waves 7).map List.length = [3, 3, 1]) ∧
    (∀ (n : Nat) (pre post : List (List Nat)) (w1 w2 : List Nat),
      waves n = pre ++ w1 :: w2 :: post →
        ∃ t1 t2, batchTrace n = t1 ++ BatchEv.barrier w1 :: (waveTrace n w2 ++ t2)) ∧
    (∀ n c : Nat, (batchTrace n).count (BatchEv.dispatch c) = if c < n then 1 else 0) :=
  ⟨totalChunksOf_ceil, waves_length_le, waves_flatten, by decide,
    batchTrace_consecutive_waves, batchTrace_count_dispatch⟩

/-- Witness for C4: a 65-second file (1,040,000 samples) yields 3 chunks; for
`N = 7` every dispatch of wave `[3, 4, 5]` comes after the barrier of wave
`[0, 1, 2]`. -/
theorem claim_C4_wave_dispatch_witness :
    ((totalChunksOf 1040000 - 1) * MAX_SAMPLES < 1040000 ∧
      1040000 ≤ totalChunksOf 1040000 * MAX_SAMPLES) ∧
    (∃ t1 t2, batchTrace 7 =
      t1 ++ BatchEv.barrier [0, 1, 2] :: (waveTrace 7 [3, 4, 5] ++ t2)) :=
  ⟨claim_C4_wave_dispatch.1 1040000 (by decide),
    claim_C4_wave_dispatch.2.2.2.2.1 7 [] [[6]] [0, 1, 2] [3, 4, 5] (by decide)⟩

/-- C5 counterexample: for `N = 3` the dispatch-time progress values produced
by `Math.round((i + j) / totalChunks * 100)` are `0, 33, 67` — the third chunk
dispatches at `round(200/3) = 67`, and the value `66` claimed by the
specification never appears in the trace. -/
theorem claim_C5_counterexample :
    batchTrace 3 =
      [BatchEv.setProgress 0, BatchEv.dispatch 0, BatchEv.setProgress 33,
       BatchEv.dispatch 1, BatchEv.setProgress 67, BatchEv.dispatch 2,
       BatchEv.barrier [0, 1, 2], BatchEv.setProgress 100] ∧
    BatchEv.setProgress 66 ∉ batchTrace 3 := by
  decide

/-- C5 amended: the progress reported at the dispatch of chunk `i` is
`Math.round(i / N * 100)` — the count of previously dispatched chunks over
`N`, rounded to the nearest integer — computed at submission time: every
dispatch event in the trace is immediately preceded by its own progress event;
for `N = 3` the dispatch-time values are `0, 33, 67` (not `66`); and the trace
sets progress 100 only at its very end, after the final wave's barrier. -/
theorem claim_C5_dispatch_progress :
    (∀ n c : Nat, c < n →
      ∃ t1 t2, batchTrace n =
        t1 ++ BatchEv.setProgress (progressAt c n) :: BatchEv.dispatch c :: t2) ∧
    (∀ n : Nat, 0 < n →
      ∃ t w, batchTrace n = t ++ [BatchEv.barrier w, BatchEv.setProgress 100]) ∧
    progressAt 0 3 = 0 ∧ progressAt 1 3 = 33 ∧ progressAt 2 3 = 67 :=
  ⟨batchTrace_progress_dispatch, batchTrace_ends, by decide, by decide, by decide⟩

/-- Witness for C5 amended: in the 3-chunk trace, chunk 2 dispatches right
after its progress value `progressAt 2 3`. -/
theorem claim_C5_dispatch_progress_witness :
    ∃ t1 t2, batchTrace 3 =
      t1 ++ BatchEv.setProgress (progressAt 2 3) :: BatchEv.dispatch 2 :: t2 :=
  claim_C5_dispatch_progress.1 3 2 (by decide)

/-- C6 counterexample: a batch session whose single chunk completes with text
`"hello"` ends with the transcript `" hello"` — the accumulator starts from
the empty string and appends every non-empty result as `` `${p} ${newOutput}` ``,
so the final transcript carries a leading space, contradicting the claimed
absence of leading space. -/
theorem claim_C6_counterexample :
    batchTranscript ["hello"] = " hello" ∧ batchTranscript ["hello"] ≠ "hello" := by
  decide

/-- C6 amended: the final transcript is one leading space followed by the
non-empty trimmed per-chunk texts, in completion-arrival order (which under
the single-flight FIFO scheduler coincides with chunk-id order when every
chunk completes), joined by exactly one separating space; empty per-chunk
results are omitted. -/
theorem claim_C6_transcript :
    (∀ outputs : List String,
      batchTranscript outputs =
        spaceJoined ((outputs.map jsTrim).filter (fun t => t != ""))) ∧
    (∀ (outputs : List String) (x : String) (xs : List String),
      (outputs.map jsTrim).filter (fun t => t != "") = x :: xs →
        batchTranscript outputs = " " ++ String.intercalate " " (x :: xs)) := by
  refine ⟨batchTranscript_eq, ?_⟩
  intro outputs x xs h
  rw [batchTranscript_eq, h, spaceJoined_intercalate]

/-- Witness for C6 amended: outputs `["hello", " ", "world"]` trim and filter
to `["hello", "world"]` and assemble to a leading space plus
`"hello world"`. -/
theorem claim_C6_transcript_witness :
    batchTranscript ["hello", " ", "world"] =
      " " ++ String.intercalate " " ["hello", "world"] :=
  claim_C6_transcript.2 ["hello", " ", "world"] "hello" ["world"] (by decide)

/-- C7: the realtime merge acts as claimed.  For any transcript and result
free of surrounding whitespace (every transcript this component stores is:
it is built by this merge from trimmed pieces starting from the empty string),
the code's merge equals the claimed rule — a result that trims to empty or to
`[BLANK_AUDIO]` leaves the transcript unchanged, an exact-suffix result is
suppressed, anything else is appended after a single space (or replaces an
empty transcript).  Concretely: `"hello" + "[BLANK_AUDIO]" = "hello"`,
`"hello world" + "world" = "hello world"`, `"hello" + "there" =
"hello there"`. -/
theorem claim_C7_realtime_merge :
    (∀ t r : String, jsTrim t = t → jsTrim r = r →
      realtimeMergeText t r = realtimeMergeSpec t r) ∧
    realtimeMergeText "hello" "[BLANK_AUDIO]" = "hello" ∧
    realtimeMergeText "hello world" "world" = "hello world" ∧
    realtimeMergeText "hello" "there" = "hello there" :=
  ⟨realtimeMergeText_eq_spec, by decide, by decide, by decide⟩

/-- Witness for C7: both `"hello"` and `"there"` are trim-fixed and the code
merge coincides with the claimed rule on them. -/
theorem claim_C7_realtime_merge_witness :
    jsTrim "hello" = "hello" ∧ jsTrim "there" = "there" ∧
    realtimeMergeText "hello" "there" = realtimeMergeSpec "hello" "there" :=
  ⟨by decide, by decide, claim_C7_realtime_merge.1 "hello" "there" (by decide) (by decide)⟩

/-- C8: when the in-flight chunk's model call ends — in success or in error —
the scheduler clears the processing flag and the in-flight slot, appends
exactly one terminal message carrying that chunk's id, and, if the queue is
non-empty, removes its head (FIFO) into the deferred-timeout slot without
starting it; the timeout callback then starts it through `generate` when it
fires while the scheduler is idle.  The scheduling effect of an error is
field-for-field identical to that of a success, so an error on one chunk never
stops the queue from draining. -/
theorem claim_C8_terminal_drain :
    (∀ (s : WorkerState) (c : Chunk) (o : Outcome), s.inFlight = some c →
      (finishGenerate s o).isCurrentlyProcessing = false ∧
      (finishGenerate s o).inFlight = none ∧
      (finishGenerate s o).events = s.events ++ [terminalEvent c.chunkId o] ∧
      isTerminalEvent (terminalEvent c.chunkId o) = true ∧
      eventChunkId (terminalEvent c.chunkId o) = c.chunkId ∧
      ((s.processingQueue = [] ∧ (finishGenerate s o).processingQueue = [] ∧
          (finishGenerate s o).pendingTick = s.pendingTick) ∨
        (∃ next rest, s.processingQueue = next :: rest ∧
          (finishGenerate s o).processingQueue = rest ∧
          (finishGenerate s o).pendingTick = s.pendingTick ++ [next]))) ∧
    (∀ (s : WorkerState) (reason output : String),
      (finishGenerate s (Outcome.error reason)).processingQueue =
        (finishGenerate s (Outcome.complete output)).processingQueue ∧
      (finishGenerate s (Outcome.error reason)).pendingTick =
        (finishGenerate s (Outcome.complete output)).pendingTick ∧
      (finishGenerate s (Outcome.error reason)).isCurrentlyProcessing =
        (finishGenerate s (Outcome.complete output)).isCurrentlyProcessing ∧
      (finishGenerate s (Outcome.error reason)).inFlight =
        (finishGenerate s (Outcome.complete output)).inFlight) ∧
    (∀ (s : WorkerState) (c : Chunk) (rest : List Chunk),
      s.pendingTick = c :: rest → s.isCurrentlyProcessing = false →
        (workerTick s).inFlight = some c ∧
        (workerTick s).events = s.events ++ [OutEvent.start c.chunkId] ∧
        (workerTick s).pendingTick = rest) := by
  refine ⟨?_, ?_, ?_⟩
  · intro s c o hf
    cases hq : s.processingQueue with
    | nil =>
      rw [finishGenerate_some_nil s o c hf hq]
      exact ⟨rfl, rfl, rfl, isTerminalEvent_terminalEvent _ _, by cases o <;> rfl,
        Or.inl ⟨rfl, hq, rfl⟩⟩
    | cons next rest =>
      rw [finishGenerate_some_cons s o c next rest hf hq]
      exact ⟨rfl, rfl, rfl, isTerminalEvent_terminalEvent _ _, by cases o <;> rfl,
        Or.inr ⟨next, rest, rfl, rfl, rfl⟩⟩
  · intro s reason output
    cases hf : s.inFlight with
    | none =>
      rw [finishGenerate_none s (Outcome.error reason) hf,
        finishGenerate_none s (Outcome.complete output) hf]
      exact ⟨rfl, rfl, rfl, rfl⟩
    | some c =>
      cases hq : s.processingQueue with
      | nil =>
        rw [finishGenerate_some_nil s (Outcome.error reason) c hf hq,
          finishGenerate_some_nil s (Outcome.complete output) c hf hq]
        exact ⟨rfl, rfl, rfl, rfl⟩
      | cons next rest =>
        rw [finishGenerate_some_cons s (Outcome.error reason) c next rest hf hq,
          finishGenerate_some_cons s (Outcome.complete output) c next rest hf hq]
        exact ⟨rfl, rfl, rfl, rfl⟩
  · intro s c rest hp hidle
    rw [workerTick_cons s c rest hp,
      generate_idle { s with pendingTick := rest } c (by exact hidle)]
    exact ⟨rfl, rfl, rfl⟩

/-- Witness for C8: with chunk 0 in flight and chunk 1 queued, an error on
chunk 0 clears the flag and moves chunk 1 to the deferred tick. -/
theorem claim_C8_terminal_drain_witness :
    (runWorker [Act.submit ⟨ChunkId.num 0, 4, "en"⟩,
        Act.submit ⟨ChunkId.num 1, 4, "en"⟩]).inFlight = some ⟨ChunkId.num 0, 4, "en"⟩ ∧
    (finishGenerate (runWorker [Act.submit ⟨ChunkId.num 0, 4, "en"⟩,
        Act.submit ⟨ChunkId.num 1, 4, "en"⟩])
      (Outcome.error "x")).isCurrentlyProcessing = false :=
  ⟨by decide,
    (claim_C8_terminal_drain.1
      (runWorker [Act.submit ⟨ChunkId.num 0, 4, "en"⟩, Act.submit ⟨ChunkId.num 1, 4, "en"⟩])
      ⟨ChunkId.num 0, 4, "en"⟩ (Outcome.error "x") (by decide)).1⟩

/-- C9: on a worker `error` message the main-thread handler sets the session
status to `'error'` and replaces the whole displayed transcript with the error
text `"Error: " ++ data` — independent of whatever transcript had accumulated —
while still resolving that chunk's pending waiter exactly once and deleting it
from the resolver map: the resolver for that id is gone afterwards, all other
resolvers are untouched, and a second identical error message resolves nothing
further. -/
theorem claim_C9_error_replaces_text (s : AppState) (data : String) (id : ChunkId)
    (hres : s.resolvers id = true) :
    (onErrorMessage s data id).status = "error" ∧
    (onErrorMessage s data id).text = "Error: " ++ data ∧
    (onErrorMessage s data id).resolvedLog = s.resolvedLog ++ [id] ∧
    (onErrorMessage s data id).resolvers id = false ∧
    (∀ x : ChunkId, x ≠ id → (onErrorMessage s data id).resolvers x = s.resolvers x) ∧
    (onErrorMessage (onErrorMessage s data id) data id).resolvedLog =
      (onErrorMessage s data id).resolvedLog := by
  have h1 : onErrorMessage s data id =
      { status := "error", text := "Error: " ++ data,
        resolvers := fun x => if x = id then false else s.resolvers x,
        resolvedLog := s.resolvedLog ++ [id] } := by
    unfold onErrorMessage
    rw [if_pos hres]
  refine ⟨by rw [h1], by rw [h1], by rw [h1], by rw [h1]; simp, ?_, ?_⟩
  · intro x hx
    rw [h1]
    simp [hx]
  · rw [h1]
    unfold onErrorMessage
    rw [if_neg (by simp)]

/-- Witness for C9: a session with a pending resolver for chunk 1 and prior
transcript `"old text"` ends with text `"Error: boom"`. -/
theorem claim_C9_error_replaces_text_witness :
    (AppState.mk "ready" "old text" (fun x => x == ChunkId.num 1) []).resolvers
        (ChunkId.num 1) = true ∧
    (onErrorMessage (AppState.mk "ready" "old text" (fun x => x == ChunkId.num 1) [])
        "boom" (ChunkId.num 1)).text = "Error: " ++ "boom" :=
  ⟨by decide,
    (claim_C9_error_replaces_text
      (AppState.mk "ready" "old text" (fun x => x == ChunkId.num 1) [])
      "boom" (ChunkId.num 1) (by decide)).2.1⟩

/-- C10 counterexample: chunk 5 fails; chunk 3, submitted while idle, lowers
the mark to 3 and starts; re-submitting the failed id 5 while chunk 3 is
processing is NOT dropped — `¬(5 <= 3)` passes the dedup test, chunk 5 is
queued, and after chunk 3's completion and the deferred tick it is processed
again under its own id: the final state has chunk 5 in flight and the log
holds two `start` messages for id 5. -/
theorem claim_C10_counterexample :
    (runWorker [Act.submit ⟨ChunkId.num 5, 10, "en"⟩, Act.finish (Outcome.error "boom"),
        Act.submit ⟨ChunkId.num 3, 10, "en"⟩, Act.submit ⟨ChunkId.num 5, 10, "en"⟩,
        Act.finish (Outcome.complete "t"), Act.tick]).inFlight =
      some ⟨ChunkId.num 5, 10, "en"⟩ ∧
    (runWorker [Act.submit ⟨ChunkId.num 5, 10, "en"⟩, Act.finish (Outcome.error "boom"),
        Act.submit ⟨ChunkId.num 3, 10, "en"⟩, Act.submit ⟨ChunkId.num 5, 10, "en"⟩,
        Act.finish (Outcome.complete "t"), Act.tick]).events.count
      (OutEvent.start (ChunkId.num 5)) = 2 := by
  decide

/-- C10 amended: the high-water mark is advanced when processing begins — an
idle-state submission sets `lastProcessedChunkId` to its id before any outcome
is known — and a failure does not restore it (terminal events leave the mark
unchanged).  Hence a re-submission of a failed id while another chunk is
processing is silently dropped exactly when the failed id is `<=` the current
mark; if a smaller-id chunk started in between and overwrote the mark, the
failed id passes the dedup test, is queued, and is retried under its own id. -/
theorem claim_C10_failed_id_dedup :
    (∀ (s : WorkerState) (c : Chunk), s.isCurrentlyProcessing = false →
      (generate s c).lastProcessedChunkId = c.chunkId ∧
      (generate s c).inFlight = some c) ∧
    (∀ (s : WorkerState) (o : Outcome),
      (finishGenerate s o).lastProcessedChunkId = s.lastProcessedChunkId) ∧
    (∀ (s : WorkerState) (c : Chunk), s.isCurrentlyProcessing = true →
      jsLe c.chunkId s.lastProcessedChunkId = true → generate s c = s) ∧
    (∀ (s : WorkerState) (c : Chunk), s.isCurrentlyProcessing = true →
      jsLe c.chunkId s.lastProcessedChunkId = false →
      s.processingQueue.any (fun item => item.chunkId == c.chunkId) = false →
      (generate s c).processingQueue = s.processingQueue ++ [c]) := by
  refine ⟨?_, lastProcessedChunkId_finishGenerate, ?_, ?_⟩
  · intro s c hp
    rw [generate_idle s c hp]
    exact ⟨rfl, rfl⟩
  · intro s c hp hle
    apply generate_processing_drop s c hp
    rw [hle]
    rfl
  · intro s c hp hle hq
    rw [generate_processing_queue s c hp (by rw [hle, hq]; rfl)]

/-- Witness for C10 amended: with chunk 5 in flight (mark 5), re-submitting
id 4 (`4 <= 5`) is silently dropped. -/
theorem claim_C10_failed_id_dedup_witness :
    (runWorker [Act.submit ⟨ChunkId.num 5, 10, "en"⟩]).isCurrentlyProcessing = true ∧
    generate (runWorker [Act.submit ⟨ChunkId.num 5, 10, "en"⟩]) ⟨ChunkId.num 4, 10, "en"⟩ =
      runWorker [Act.submit ⟨ChunkId.num 5, 10, "en"⟩] :=
  ⟨by decide, claim_C10_failed_id_dedup.2.2.1 _ _ (by decide) (by decide)⟩
